import Mathlib

/-!
Verification of the GTFS graph-construction core of `prague_dataset.py`
(`PIDNetwork._build_graph` and `PIDNetwork._parse_gtfs_time`).

Strings are modelled as `List Char` (`Str`).  Python `int(...)` and
`float(...)` on strings are modelled by `pyInt?` and `pyFloat?` (ASCII
whitespace and ASCII digits; Python float syntax including `inf`,
`infinity` and `nan`, underscores between digits per PEP 515).  Python
exceptions are modelled by `Except Unit`: a `ValueError` escaping
`_build_graph` is `Except.error ()`.  Python floats are modelled exactly:
finite values as rationals (`ℚ`), plus `inf`, `-inf`, `nan` (`PyFloat`);
all arithmetic performed by the pipeline on travel times is modelled in
`ℚ` (the source only ever divides integer second counts by 60 and
averages the results).  Python dicts are modelled either as association
lists built in insertion order (where the source iterates over the dict)
or directly by their lookup function (where the source only looks up).

`networkx.MultiDiGraph` is modelled by `Graph`: `add_edge` appends a new
parallel edge and inserts the endpoints as nodes when absent (insertion
order), and `set_node_attributes` attaches attributes to existing nodes
only, never creating nodes.
-/

abbrev Str : Type := List Char

/-- ASCII whitespace stripped by Python `int()` / `float()` conversions. -/
def isPySpace (c : Char) : Bool :=
  c = ' ' || c = '\t' || c = '\n' || c = '\r' || c = '\x0b' || c = '\x0c'

/-- Strip leading and trailing whitespace, as Python does before numeric conversion. -/
def stripWS (s : Str) : Str :=
  ((s.dropWhile isPySpace).reverse.dropWhile isPySpace).reverse

/-- Accumulate a digit group in which single underscores may separate digits
(Python PEP 515); also counts the digits consumed.  Fails on anything else,
on a trailing underscore, or on a doubled underscore. -/
def digitsAux (acc : Nat) (k : Nat) : Str → Option (Nat × Nat)
  | [] => some (acc, k)
  | '_' :: c :: rest =>
      if c.isDigit then digitsAux (10 * acc + (c.toNat - 48)) (k + 1) rest else none
  | ['_'] => none
  | c :: rest =>
      if c.isDigit then digitsAux (10 * acc + (c.toNat - 48)) (k + 1) rest else none

/-- A whole string as a Python digit group: value and number of digits. -/
def pyDigitsCount? : Str → Option (Nat × Nat)
  | [] => none
  | c :: rest => if c.isDigit then digitsAux (c.toNat - 48) 1 rest else none

/-- A whole string as a Python digit group: its value. -/
def pyDigits? (s : Str) : Option Nat :=
  (pyDigitsCount? s).map (·.1)

/-- Python `int(text)` on a decimal string: optional surrounding whitespace,
optional sign, digit group. -/
def pyInt? (s : Str) : Option Int :=
  match stripWS s with
  | '+' :: r => (pyDigits? r).map Int.ofNat
  | '-' :: r => (pyDigits? r).map (fun n => -(Int.ofNat n))
  | r => (pyDigits? r).map Int.ofNat

/-- The value of a Python float: a finite rational, an infinity, or NaN. -/
inductive PyFloat : Type
  | finite (val : ℚ)
  | posInf
  | negInf
  | nan
deriving DecidableEq

/-- Whether a Python float value is finite. -/
def PyFloat.isFinite : PyFloat → Bool
  | .finite _ => true
  | _ => false

/-- Split a string at the first character satisfying `p`, dropping that
character; `none` when no character satisfies `p`. -/
def splitFirst (p : Char → Bool) : Str → Option (Str × Str)
  | [] => none
  | c :: rest =>
      if p c then some ([], rest)
      else (splitFirst p rest).map (fun pr => (c :: pr.1, pr.2))

/-- Exponent part of a Python float literal: optional sign, digit group. -/
def pyExpVal? (s : Str) : Option Int :=
  match s with
  | '+' :: r => (pyDigits? r).map Int.ofNat
  | '-' :: r => (pyDigits? r).map (fun n => -(Int.ofNat n))
  | r => (pyDigits? r).map Int.ofNat

/-- Mantissa of a Python float literal: `digits`, `digits.`, `digits.digits`
or `.digits`, valued as a rational. -/
def pyMantVal? (s : Str) : Option ℚ :=
  match splitFirst (fun c => c = '.') s with
  | none => (pyDigits? s).map (fun n => (n : ℚ))
  | some (ip, fp) =>
    match ip, fp with
    | [], [] => none
    | [], _ =>
        (pyDigitsCount? fp).map (fun vk => (vk.1 : ℚ) / (10 : ℚ) ^ vk.2)
    | _, [] => (pyDigits? ip).map (fun n => (n : ℚ))
    | _, _ => do
        let i ← pyDigits? ip
        let vk ← pyDigitsCount? fp
        pure ((i : ℚ) + (vk.1 : ℚ) / (10 : ℚ) ^ vk.2)

/-- An unsigned Python float literal: mantissa with optional exponent. -/
def pyDecVal? (s : Str) : Option ℚ :=
  match splitFirst (fun c => c = 'e' || c = 'E') s with
  | none => pyMantVal? s
  | some (m, ex) => do
      let mv ← pyMantVal? m
      let ev ← pyExpVal? ex
      pure (mv * (10 : ℚ) ^ ev)

/-- Body of Python `float(text)` after sign removal: `inf`, `infinity` and
`nan` are case-insensitive; otherwise a decimal literal. -/
def pyFloatBody (neg : Bool) (s : Str) : Option PyFloat :=
  let low := s.map Char.toLower
  if low = ("inf").toList ∨ low = ("infinity").toList then
    some (if neg then .negInf else .posInf)
  else if low = ("nan").toList then some .nan
  else (pyDecVal? s).map (fun q => .finite (if neg then -q else q))

/-- Python `float(text)`: optional surrounding whitespace, optional sign,
then `inf`/`infinity`/`nan` or a decimal literal. -/
def pyFloat? (s : Str) : Option PyFloat :=
  match stripWS s with
  | '+' :: r => pyFloatBody false r
  | '-' :: r => pyFloatBody true r
  | r => pyFloatBody false r

/-- Python `text.split(sep)` for a one-character separator: always returns at
least one (possibly empty) field. -/
def splitOnColon : Str → List Str
  | [] => [[]]
  | c :: rest =>
    match splitOnColon rest with
    | [] => [[c]]
    | p :: ps => if c = ':' then [] :: p :: ps else (c :: p) :: ps

/-- `PIDNetwork._parse_gtfs_time`: empty text and text with a field count
other than three yield `none` (unparseable); three fields are converted with
Python `int`, whose failure raises `ValueError` (`Except.error`). -/
def parse_gtfs_time (time_text : Str) : Except Unit (Option Int) :=
  if time_text = [] then .ok none
  else
    match splitOnColon time_text with
    | [p0, p1, p2] =>
      match pyInt? p0, pyInt? p1, pyInt? p2 with
      | some hours, some minutes, some seconds =>
          .ok (some (hours * 3600 + minutes * 60 + seconds))
      | _, _, _ => .error ()
    | _ => .ok none

/-- A row of `stops.txt` at the boundary the core consumes; missing optional
fields are empty strings (spec section 6). -/
structure StopRow where
  stop_id : Str
  stop_name : Str
  zone_id : Str
  stop_lon : Str
  stop_lat : Str
deriving DecidableEq

/-- A row of `trips.txt`; `direction_id` is `none` when the column is absent,
matching `row.get("direction_id", "")`. -/
structure TripRow where
  trip_id : Str
  route_id : Str
  direction_id : Option Str
deriving DecidableEq

/-- A row of `routes.txt`. -/
structure RouteRow where
  route_id : Str
  route_type : Str
deriving DecidableEq

/-- A row of `stop_times.txt`. -/
structure StopTimeRow where
  trip_id : Str
  stop_id : Str
  stop_sequence : Str
  arrival_time : Str
  departure_time : Str
deriving DecidableEq

/-- Mapping a fallible step over a list, left to right, as a Python loop
does: the first raised exception escapes. -/
def mapExcept {α β : Type} (f : α → Except Unit β) : List α → Except Unit (List β)
  | [] => .ok []
  | a :: as => do
      let b ← f a
      let bs ← mapExcept f as
      pure (b :: bs)

/-- First-match lookup in an association list (Python dict lookup for dicts
built with insert-if-absent, whose keys are unique). -/
def alookup {α β : Type} [DecidableEq α] : List (α × β) → α → Option β
  | [], _ => none
  | (k, v) :: rest, key => if k = key then some v else alookup rest key

/-- The configured transport-mode codes: `{"0", "1"}` (tram, metro). -/
def mode_codes : List Str := ["0", "1"].map String.toList

/-- Membership of a route id in `selected_route_ids`. -/
def route_qualifies (routes : List RouteRow) (rid : Str) : Bool :=
  routes.any (fun r => decide (r.route_id = rid) && decide (r.route_type ∈ mode_codes))

/-- The `selected_trips` dict: scan trips in source order, keep the first
trip id for each (route_id, direction_id) key among qualifying routes. -/
def selected_trips (routes : List RouteRow) (trips : List TripRow) :
    List ((Str × Str) × Str) :=
  trips.foldl
    (fun acc row =>
      if route_qualifies routes row.route_id then
        let key := (row.route_id, row.direction_id.getD [])
        if (alookup acc key).isSome then acc else acc ++ [(key, row.trip_id)]
      else acc)
    []

/-- Membership of a trip id in `selected_trip_ids` (the dict's value set). -/
def is_selected_trip_id (routes : List RouteRow) (trips : List TripRow) (tid : Str) : Bool :=
  (selected_trips routes trips).any (fun kv => decide (kv.2 = tid))

/-- The configured fare-zone tags. -/
def valid_zone_ids : List Str := ["0", "P", "B", "0,B", "P,0"].map String.toList

/-- The `stop_rows` filter: acceptable zone tag and non-empty stop name. -/
def stop_rows (stops : List StopRow) : List StopRow :=
  stops.filter (fun row => decide (row.zone_id ∈ valid_zone_ids) && decide (row.stop_name ≠ []))

/-- Lookup in the `stop_name_by_id` dict comprehension; a dict comprehension
overwrites, so the last qualifying row with the given stop id wins. -/
def stop_name_by_id (stops : List StopRow) (sid : Str) : Option Str :=
  ((((stop_rows stops).filter
        (fun row => decide (row.stop_id ≠ []) && decide (row.stop_name ≠ []))).reverse).find?
      (fun row => decide (row.stop_id = sid))).map (·.stop_name)

/-- The coordinate-parsing step for one stop row: skip when either text is
empty, then Python `float` both; a `ValueError` is caught and yields a skip. -/
def coords_of (row : StopRow) : Option (PyFloat × PyFloat) :=
  let lon_text := row.stop_lon
  let lat_text := row.stop_lat
  if lon_text = [] ∨ lat_text = [] then none
  else
    match pyFloat? lon_text, pyFloat? lat_text with
    | some lon_value, some lat_value => some (lon_value, lat_value)
    | _, _ => none

/-- The `stop_info_by_name` dict: scan `stop_rows` in order; a name already
present is skipped, otherwise the row's coordinates are parsed and, on
success, bound to the name. -/
def stop_info_by_name (stops : List StopRow) : List (Str × (PyFloat × PyFloat)) :=
  (stop_rows stops).foldl
    (fun acc row =>
      if (alookup acc row.stop_name).isSome then acc
      else
        match coords_of row with
        | none => acc
        | some p => acc ++ [(row.stop_name, p)])
    []

/-- The `selected_stop_times` filter: selected trip and known stop name. -/
def selected_stop_times (stops : List StopRow) (stop_times : List StopTimeRow)
    (trips : List TripRow) (routes : List RouteRow) : List StopTimeRow :=
  stop_times.filter (fun row =>
    is_selected_trip_id routes trips row.trip_id && (stop_name_by_id stops row.stop_id).isSome)

/-- Python tuple comparison on the sort key `(trip_id, int(stop_sequence))`. -/
def sort_key_le (a b : Str × Int) : Prop :=
  a.1 < b.1 ∨ (a.1 = b.1 ∧ a.2 ≤ b.2)

instance : DecidableRel sort_key_le := fun a b => by
  unfold sort_key_le
  infer_instance

/-- Comparison of decorated rows by their sort key. -/
def row_le (a b : StopTimeRow × (Str × Int)) : Prop :=
  sort_key_le a.2 b.2

instance : DecidableRel row_le := fun a b => by
  unfold row_le
  infer_instance

instance : IsTotal (StopTimeRow × (Str × Int)) row_le where
  total a b := by
    unfold row_le sort_key_le
    rcases lt_trichotomy a.2.1 b.2.1 with h | h | h
    · exact Or.inl (Or.inl h)
    · rcases le_total a.2.2 b.2.2 with h2 | h2
      · exact Or.inl (Or.inr ⟨h, h2⟩)
      · exact Or.inr (Or.inr ⟨h.symm, h2⟩)
    · exact Or.inr (Or.inl h)

instance : IsTrans (StopTimeRow × (Str × Int)) row_le where
  trans a b c hab hbc := by
    unfold row_le sort_key_le at *
    rcases hab with h1 | ⟨e1, l1⟩ <;> rcases hbc with h2 | ⟨e2, l2⟩
    · exact Or.inl (lt_trans h1 h2)
    · exact Or.inl (e2 ▸ h1)
    · exact Or.inl (e1 ▸ h2)
    · exact Or.inr ⟨e1.trans e2, le_trans l1 l2⟩

/-- Decorating each row with its sort key; Python evaluates
`int(row["stop_sequence"])` for every row before sorting, and a
`ValueError` aborts the construction. -/
def decorated (rows : List StopTimeRow) : Except Unit (List (StopTimeRow × (Str × Int))) :=
  mapExcept
    (fun row =>
      match pyInt? row.stop_sequence with
      | some n => .ok (row, (row.trip_id, n))
      | none => .error ())
    rows

/-- `sorted(selected_stop_times, key=...)`: a stable sort by
`(trip_id, int(stop_sequence))`. -/
def sorted_stop_times (rows : List StopTimeRow) : Except Unit (List StopTimeRow) := do
  let d ← decorated rows
  pure ((List.insertionSort row_le d).map (·.1))

/-- One entry of the per-trip sequences in `times_by_trip`. -/
structure TimedStop where
  stop_name : Str
  arrival : Str
  departure : Str
deriving DecidableEq

/-- Conversion of a stop-time row to its `times_by_trip` entry; the row was
filtered, so the name lookup cannot actually miss. -/
def to_timed_stop (stops : List StopRow) (row : StopTimeRow) : TimedStop :=
  { stop_name := (stop_name_by_id stops row.stop_id).getD []
  , arrival := row.arrival_time
  , departure := row.departure_time }

/-- Appending to a `defaultdict(list)` grouped by key, preserving the
first-appearance order of keys. -/
def add_to_group {α : Type} : List (Str × List α) → Str → α → List (Str × List α)
  | [], key, x => [(key, [x])]
  | (k, xs) :: rest, key, x =>
    if k = key then (k, xs ++ [x]) :: rest else (k, xs) :: add_to_group rest key x

/-- The `times_by_trip` grouping of the sorted rows. -/
def times_by_trip (stops : List StopRow) (rows : List StopTimeRow) :
    List (Str × List TimedStop) :=
  rows.foldl (fun acc row => add_to_group acc row.trip_id (to_timed_stop stops row)) []

/-- One consecutive pair inside a trip: parse the departure of the current
row and the arrival of the next (either may raise), skip when either is
unparseable, compute the duration in minutes, and drop it when negative. -/
def seg_sample (current_row next_row : TimedStop) :
    Except Unit (Option ((Str × Str) × ℚ)) := do
  let dep_seconds ← parse_gtfs_time current_row.departure
  let arr_seconds ← parse_gtfs_time next_row.arrival
  match dep_seconds, arr_seconds with
  | some d, some a =>
    let travel_time_min : ℚ := ((a : ℚ) - (d : ℚ)) / 60
    if travel_time_min < 0 then pure none
    else pure (some ((current_row.stop_name, next_row.stop_name), travel_time_min))
  | _, _ => pure none

/-- All surviving samples of one trip, in traversal order. -/
def trip_samples (rows : List TimedStop) : Except Unit (List ((Str × Str) × ℚ)) := do
  let opts ← mapExcept (fun pr => seg_sample pr.1 pr.2) (rows.zip rows.tail)
  pure opts.reduceOption

/-- The flattened content of the `segment_times` defaultdict: every surviving
sample of every trip, tagged with its directed stop-name pair. -/
def all_samples (groups : List (Str × List TimedStop)) :
    Except Unit (List ((Str × Str) × ℚ)) := do
  let per_trip ← mapExcept (fun g => trip_samples g.2) groups
  pure per_trip.flatten

/-- The sample list `segment_times[pair]`, in append order. -/
def samples_for (samples : List ((Str × Str) × ℚ)) (pair : Str × Str) : List ℚ :=
  (samples.filter (fun s => decide (s.1 = pair))).map (·.2)

/-- The `avg_segment_time` dict: arithmetic mean of the pair's samples. -/
def avg_segment_time (samples : List ((Str × Str) × ℚ)) (pair : Str × Str) : Option ℚ :=
  let values := samples_for samples pair
  if values = [] then none else some (values.sum / values.length)

/-- The `networkx.MultiDiGraph` under construction: nodes in insertion
order, parallel directed edges in insertion order, node attributes. -/
structure Graph where
  nodes : List Str
  edges : List (Str × Str × ℚ)
  node_attrs : List (Str × (PyFloat × PyFloat))
deriving DecidableEq

/-- Node insertion as performed by `add_edge`: only when absent. -/
def insert_node (nodes : List Str) (n : Str) : List Str :=
  if n ∈ nodes then nodes else nodes ++ [n]

/-- `MultiDiGraph.add_edge`: inserts both endpoints when absent and appends
a new parallel edge. -/
def add_edge (g : Graph) (u v : Str) (w : ℚ) : Graph :=
  { g with nodes := insert_node (insert_node g.nodes u) v
         , edges := g.edges ++ [(u, v, w)] }

/-- The inner loop of the graph-building pass: walk one trip's stop names
and add an edge for each consecutive pair that has an averaged time. -/
def add_trip_edges (avg : Str × Str → Option ℚ) (g : Graph) (stop_names : List Str) : Graph :=
  (stop_names.zip stop_names.tail).foldl
    (fun g pr =>
      match avg (pr.1, pr.2) with
      | none => g
      | some avg_time_min => add_edge g pr.1 pr.2 avg_time_min)
    g

/-- `networkx.set_node_attributes` with a dict of dicts: attributes attach
to existing nodes only; names absent from the graph are ignored. -/
def set_node_attributes (g : Graph) (info : List (Str × (PyFloat × PyFloat))) : Graph :=
  { g with node_attrs := info.filter (fun kv => decide (kv.1 ∈ g.nodes)) }

/-- The per-trip ordered stop sequences computed by `_build_graph` up to and
including the `times_by_trip` grouping. -/
def feed_groups (stops : List StopRow) (stop_times : List StopTimeRow)
    (trips : List TripRow) (routes : List RouteRow) :
    Except Unit (List (Str × List TimedStop)) := do
  let sorted ← sorted_stop_times (selected_stop_times stops stop_times trips routes)
  pure (times_by_trip stops sorted)

/-- The full flattened `segment_times` content computed by `_build_graph`. -/
def feed_samples (stops : List StopRow) (stop_times : List StopTimeRow)
    (trips : List TripRow) (routes : List RouteRow) :
    Except Unit (List ((Str × Str) × ℚ)) := do
  let groups ← feed_groups stops stop_times trips routes
  all_samples groups

/-- The exception-free tail of `_build_graph`: build the multigraph from the
per-trip sequences and the aggregated samples, then attach node attributes. -/
def assemble_graph (groups : List (Str × List TimedStop))
    (samples : List ((Str × Str) × ℚ))
    (info : List (Str × (PyFloat × PyFloat))) : Graph :=
  set_node_attributes
    (groups.foldl
      (fun acc gr => add_trip_edges (avg_segment_time samples) acc (gr.2.map (·.stop_name)))
      ⟨[], [], []⟩)
    info

/-- `PIDNetwork._build_graph`: the whole construction. -/
def build_graph (stops : List StopRow) (stop_times : List StopTimeRow)
    (trips : List TripRow) (routes : List RouteRow) : Except Unit Graph := do
  let groups ← feed_groups stops stop_times trips routes
  let samples ← all_samples groups
  pure (assemble_graph groups samples (stop_info_by_name stops))

/-- The sort key `(trip_id, int(stop_sequence))` of a stop-time row, as a
total function; it agrees with the decoration whenever the row's
`stop_sequence` parses. -/
def row_key (row : StopTimeRow) : Str × Int :=
  (row.trip_id, (pyInt? row.stop_sequence).getD 0)

/-! ### Concrete feeds used by witnesses and counterexamples -/

/-- Stop name used in concrete feeds. -/
def nmA : Str := ("A").toList

/-- Stop name used in concrete feeds. -/
def nmB : Str := ("B").toList

/-- Stop "A", zone "0", with parseable coordinates. -/
def stopA : StopRow :=
  ⟨("sa").toList, nmA, ("0").toList, ("14.4").toList, ("50.1").toList⟩

/-- Stop "B", zone "0", with parseable coordinates. -/
def stopB : StopRow :=
  ⟨("sb").toList, nmB, ("0").toList, ("14.5").toList, ("50.2").toList⟩

/-- A tram route. -/
def routeR : RouteRow := ⟨("r1").toList, ("0").toList⟩

/-- First trip of route r1, direction 0. -/
def tripT1 : TripRow := ⟨("t1").toList, ("r1").toList, some (("0").toList)⟩

/-- Second trip of route r1, direction 1. -/
def tripT2 : TripRow := ⟨("t2").toList, ("r1").toList, some (("1").toList)⟩

/-- Trip t1 visits A (departure 08:00:00) then B (arrival 08:04:00). -/
def stA1 : StopTimeRow :=
  ⟨("t1").toList, ("sa").toList, ("1").toList, ("08:00:00").toList, ("08:00:00").toList⟩

/-- Trip t1, second visit. -/
def stB1 : StopTimeRow :=
  ⟨("t1").toList, ("sb").toList, ("2").toList, ("08:04:00").toList, ("08:04:00").toList⟩

/-- Trip t2 visits A (departure 09:00:00) then B (arrival 09:06:00). -/
def stA2 : StopTimeRow :=
  ⟨("t2").toList, ("sa").toList, ("1").toList, ("09:00:00").toList, ("09:00:00").toList⟩

/-- Trip t2, second visit. -/
def stB2 : StopTimeRow :=
  ⟨("t2").toList, ("sb").toList, ("2").toList, ("09:06:00").toList, ("09:06:00").toList⟩

/-- A visit whose departure text has three fields but a non-numeric middle
component in one field: Python `int("xx")` raises `ValueError`. -/
def stBadTime : StopTimeRow :=
  ⟨("t1").toList, ("sa").toList, ("1").toList, ("08:00:00").toList, ("08:xx:00").toList⟩

/-- The follow-up visit after the malformed one. -/
def stAfterBad : StopTimeRow :=
  ⟨("t1").toList, ("sb").toList, ("2").toList, ("08:05:00").toList, ("08:05:00").toList⟩

/-- A third stop used by the ordering feed. -/
def stopC : StopRow :=
  ⟨("sc").toList, ("C").toList, ("0").toList, ("14.6").toList, ("50.3").toList⟩

/-- Visit with stop_sequence "2". -/
def stSeq2 : StopTimeRow :=
  ⟨("t1").toList, ("sa").toList, ("2").toList, ("08:00:00").toList, ("08:00:00").toList⟩

/-- Visit with stop_sequence "10"; lexically it would sort first. -/
def stSeq10 : StopTimeRow :=
  ⟨("t1").toList, ("sb").toList, ("10").toList, ("08:20:00").toList, ("08:20:00").toList⟩

/-- Visit with stop_sequence "3". -/
def stSeq3 : StopTimeRow :=
  ⟨("t1").toList, ("sc").toList, ("3").toList, ("08:10:00").toList, ("08:10:00").toList⟩

/-- Second visit arriving one minute before the first one departs: the
computed duration is negative. -/
def stNegArr : StopTimeRow :=
  ⟨("t1").toList, ("sb").toList, ("2").toList, ("07:59:00").toList, ("07:59:00").toList⟩

/-- Second visit arriving exactly when the first one departs: the computed
duration is zero. -/
def stZeroArr : StopTimeRow :=
  ⟨("t1").toList, ("sb").toList, ("2").toList, ("08:00:00").toList, ("08:00:00").toList⟩

/-- Trip t1 going A (departure 08:00:00) to B (arrival 08:05:00). -/
def stB5 : StopTimeRow :=
  ⟨("t1").toList, ("sb").toList, ("2").toList, ("08:05:00").toList, ("08:05:00").toList⟩

/-- A trip used for the opposite direction B to A. -/
def tripT3 : TripRow := ⟨("t3").toList, ("r1").toList, some (("1").toList)⟩

/-- Trip t3 visits B (departure 10:00:00). -/
def st3B : StopTimeRow :=
  ⟨("t3").toList, ("sb").toList, ("1").toList, ("10:00:00").toList, ("10:00:00").toList⟩

/-- Trip t3 then visits A (arrival 10:02:00). -/
def st3A : StopTimeRow :=
  ⟨("t3").toList, ("sa").toList, ("2").toList, ("10:02:00").toList, ("10:02:00").toList⟩

/-- A stop whose longitude text is "inf": Python `float("inf")` succeeds and
yields an infinite, hence non-finite, coordinate. -/
def stopInf : StopRow :=
  ⟨("si").toList, nmA, ("0").toList, ("inf").toList, ("50.0").toList⟩

/-- The samples produced by the two-trip feed: 4 minutes from trip t1 and
6 minutes from trip t2, both for the pair (A, B). -/
def samplesTwo : List ((Str × Str) × ℚ) := [((nmA, nmB), 4), ((nmA, nmB), 6)]

/-- The graph produced by the two-trip feed: two parallel edges A to B, both
carrying the averaged weight 5. -/
def graphTwo : Graph :=
  ⟨[nmA, nmB],
   [(nmA, nmB, 5), (nmA, nmB, 5)],
   [(nmA, (PyFloat.finite (72/5), PyFloat.finite (501/10))),
    (nmB, (PyFloat.finite (29/2), PyFloat.finite (251/5)))]⟩

/-! ### General lemmas about the `Except` embedding -/

theorem except_bind_ok {α β : Type} (a : α) (f : α → Except Unit β) :
    (Except.ok a >>= f : Except Unit β) = f a := rfl

theorem except_bind_error {α β : Type} (f : α → Except Unit β) :
    (Except.error () >>= f : Except Unit β) = Except.error () := rfl

theorem except_pure {α : Type} (a : α) : (pure a : Except Unit α) = Except.ok a := rfl

theorem mapExcept_cons_ok {α β : Type} {f : α → Except Unit β} {a : α} {as : List α}
    {ys : List β} :
    mapExcept f (a :: as) = .ok ys ↔
      ∃ b bs, f a = .ok b ∧ mapExcept f as = .ok bs ∧ ys = b :: bs := by
  constructor
  · intro h
    rw [mapExcept] at h
    cases hfa : f a with
    | error e =>
        cases e
        rw [hfa, except_bind_error] at h
        exact absurd h (by simp)
    | ok b =>
        rw [hfa, except_bind_ok] at h
        cases hrest : mapExcept f as with
        | error e =>
            cases e
            rw [hrest, except_bind_error] at h
            exact absurd h (by simp)
        | ok bs =>
            rw [hrest, except_bind_ok, except_pure] at h
            exact ⟨b, bs, rfl, rfl, (by simpa using h.symm)⟩
  · rintro ⟨b, bs, h1, h2, rfl⟩
    rw [mapExcept, h1, except_bind_ok, h2, except_bind_ok, except_pure]

theorem mapExcept_ok_mem {α β : Type} {f : α → Except Unit β} :
    ∀ {xs : List α} {ys : List β}, mapExcept f xs = .ok ys →
      ∀ y ∈ ys, ∃ x ∈ xs, f x = .ok y := by
  intro xs
  induction xs with
  | nil =>
      intro ys h y hy
      rw [mapExcept] at h
      cases h
      simp at hy
  | cons a as ih =>
      intro ys h y hy
      rcases mapExcept_cons_ok.1 h with ⟨b, bs, h1, h2, rfl⟩
      rcases List.mem_cons.1 hy with rfl | hy
      · exact ⟨a, List.mem_cons_self a as, h1⟩
      · rcases ih h2 y hy with ⟨x, hx, hfx⟩
        exact ⟨x, List.mem_cons_of_mem a hx, hfx⟩

theorem mapExcept_ok_map {α β : Type} {f : α → Except Unit β} {g : α → β}
    (hfg : ∀ x y, f x = .ok y → y = g x) :
    ∀ {xs : List α} {ys : List β}, mapExcept f xs = .ok ys → ys = xs.map g := by
  intro xs
  induction xs with
  | nil =>
      intro ys h
      rw [mapExcept] at h
      cases h
      rfl
  | cons a as ih =>
      intro ys h
      rcases mapExcept_cons_ok.1 h with ⟨b, bs, h1, h2, rfl⟩
      simp [List.map_cons, hfg a b h1, ih h2]

/-! ### Inversion lemmas for the sample computation -/

theorem seg_sample_ok_some {cur nxt : TimedStop} {s : (Str × Str) × ℚ}
    (h : seg_sample cur nxt = .ok (some s)) :
    s.1 = (cur.stop_name, nxt.stop_name) ∧ 0 ≤ s.2 := by
  rw [seg_sample] at h
  cases hdep : parse_gtfs_time cur.departure with
  | error e =>
      cases e
      rw [hdep, except_bind_error] at h
      exact absurd h (by simp)
  | ok dep =>
      rw [hdep, except_bind_ok] at h
      cases harr : parse_gtfs_time nxt.arrival with
      | error e =>
          cases e
          rw [harr, except_bind_error] at h
          exact absurd h (by simp)
      | ok arr =>
          rw [harr, except_bind_ok] at h
          rcases dep with _ | d
          · rcases arr with _ | a <;> simp [except_pure] at h
          · rcases arr with _ | a
            · simp [except_pure] at h
            · have h2 : (if ((a : ℚ) - (d : ℚ)) / 60 < 0 then
                    (pure none : Except Unit (Option ((Str × Str) × ℚ)))
                  else pure (some ((cur.stop_name, nxt.stop_name), ((a : ℚ) - (d : ℚ)) / 60))) =
                    .ok (some s) := h
              by_cases hneg : ((a : ℚ) - (d : ℚ)) / 60 < 0
              · rw [if_pos hneg, except_pure] at h2
                exact absurd h2 (by simp)
              · rw [if_neg hneg, except_pure] at h2
                have hs2 := Option.some.inj (Except.ok.inj h2)
                rw [← hs2]
                exact ⟨rfl, not_lt.1 hneg⟩

theorem trip_samples_ok_nonneg {rows : List TimedStop} {l : List ((Str × Str) × ℚ)}
    (h : trip_samples rows = .ok l) : ∀ s ∈ l, 0 ≤ s.2 := by
  rw [trip_samples] at h
  cases hopts : mapExcept (fun pr => seg_sample pr.1 pr.2) (rows.zip rows.tail) with
  | error e =>
      cases e
      rw [hopts, except_bind_error] at h
      exact absurd h (by simp)
  | ok opts =>
      rw [hopts, except_bind_ok, except_pure] at h
      cases h
      intro s hs
      have hsome : some s ∈ opts := List.reduceOption_mem_iff.1 hs
      rcases mapExcept_ok_mem hopts (some s) hsome with ⟨pr, _, hseg⟩
      exact (seg_sample_ok_some hseg).2

theorem all_samples_ok_nonneg {groups : List (Str × List TimedStop)}
    {samples : List ((Str × Str) × ℚ)}
    (h : all_samples groups = .ok samples) : ∀ s ∈ samples, 0 ≤ s.2 := by
  rw [all_samples] at h
  cases hper : mapExcept (fun g => trip_samples g.2) groups with
  | error e =>
      cases e
      rw [hper, except_bind_error] at h
      exact absurd h (by simp)
  | ok per_trip =>
      rw [hper, except_bind_ok, except_pure] at h
      cases h
      intro s hs
      rcases List.mem_flatten.1 hs with ⟨l, hl, hsl⟩
      rcases mapExcept_ok_mem hper l hl with ⟨g, _, htrip⟩
      exact trip_samples_ok_nonneg htrip s hsl

/-! ### Inversion lemmas for the whole pipeline -/

theorem feed_samples_eq (stops : List StopRow) (stop_times : List StopTimeRow)
    (trips : List TripRow) (routes : List RouteRow) :
    feed_samples stops stop_times trips routes =
      feed_groups stops stop_times trips routes >>= all_samples := rfl

theorem build_graph_ok {stops : List StopRow} {stop_times : List StopTimeRow}
    {trips : List TripRow} {routes : List RouteRow} {g : Graph}
    (h : build_graph stops stop_times trips routes = .ok g) :
    ∃ groups samples,
      feed_groups stops stop_times trips routes = .ok groups ∧
      all_samples groups = .ok samples ∧
      feed_samples stops stop_times trips routes = .ok samples ∧
      g = assemble_graph groups samples (stop_info_by_name stops) := by
  rw [build_graph] at h
  cases hg : feed_groups stops stop_times trips routes with
  | error e =>
      cases e
      rw [hg, except_bind_error] at h
      exact absurd h (by simp)
  | ok groups =>
      rw [hg, except_bind_ok] at h
      cases hs : all_samples groups with
      | error e =>
          cases e
          rw [hs, except_bind_error] at h
          exact absurd h (by simp)
      | ok samples =>
          rw [hs, except_bind_ok, except_pure] at h
          cases h
          exact ⟨groups, samples, rfl, hs, by rw [feed_samples_eq, hg, except_bind_ok, hs], rfl⟩

theorem avg_segment_time_some {samples : List ((Str × Str) × ℚ)} {pair : Str × Str} {w : ℚ}
    (h : avg_segment_time samples pair = some w) :
    samples_for samples pair ≠ [] ∧
      w = (samples_for samples pair).sum / (samples_for samples pair).length := by
  rw [avg_segment_time] at h
  by_cases hnil : samples_for samples pair = []
  · rw [if_pos hnil] at h
    exact absurd h (by simp)
  · rw [if_neg hnil] at h
    exact ⟨hnil, (Option.some.inj h).symm⟩

/-! ### Invariants of the graph-building pass -/

theorem mem_insert_node {nodes : List Str} {m n : Str} :
    n ∈ insert_node nodes m ↔ n ∈ nodes ∨ n = m := by
  rw [insert_node]
  by_cases hm : m ∈ nodes
  · rw [if_pos hm]
    constructor
    · exact Or.inl
    · rintro (h | rfl)
      · exact h
      · exact hm
  · rw [if_neg hm]
    simp

theorem set_node_attributes_nodes (g : Graph) (info : List (Str × (PyFloat × PyFloat))) :
    (set_node_attributes g info).nodes = g.nodes := rfl

theorem set_node_attributes_edges (g : Graph) (info : List (Str × (PyFloat × PyFloat))) :
    (set_node_attributes g info).edges = g.edges := rfl

theorem add_trip_edges_edges_prop {avg : Str × Str → Option ℚ} {P : Str × Str × ℚ → Prop}
    (hnew : ∀ u v w, avg (u, v) = some w → P (u, v, w)) (names : List Str) :
    ∀ g : Graph, (∀ e ∈ g.edges, P e) → ∀ e ∈ (add_trip_edges avg g names).edges, P e := by
  simp only [add_trip_edges]
  generalize names.zip names.tail = prs
  induction prs with
  | nil =>
      intro g hg
      simpa using hg
  | cons pr prs ih =>
      intro g hg
      rw [List.foldl_cons]
      apply ih
      cases havg : avg (pr.1, pr.2) with
      | none => simpa [havg] using hg
      | some w =>
          simp only [havg]
          intro e he
          simp only [add_edge] at he
          rcases List.mem_append.1 he with he | he
          · exact hg e he
          · simp at he
            subst he
            exact hnew _ _ _ havg

theorem build_fold_edges_prop {avg : Str × Str → Option ℚ} {P : Str × Str × ℚ → Prop}
    (hnew : ∀ u v w, avg (u, v) = some w → P (u, v, w))
    (groups : List (Str × List TimedStop)) :
    ∀ g : Graph, (∀ e ∈ g.edges, P e) →
      ∀ e ∈ (groups.foldl (fun acc gr => add_trip_edges avg acc (gr.2.map (·.stop_name))) g).edges,
        P e := by
  induction groups with
  | nil =>
      intro g hg
      simpa using hg
  | cons gr groups ih =>
      intro g hg
      rw [List.foldl_cons]
      exact ih _ (add_trip_edges_edges_prop hnew _ g hg)

theorem add_edge_nodes_prop {g : Graph} (u v : Str) (w : ℚ)
    (hg : ∀ n ∈ g.nodes, ∃ e ∈ g.edges, n = e.1 ∨ n = e.2.1) :
    ∀ n ∈ (add_edge g u v w).nodes, ∃ e ∈ (add_edge g u v w).edges, n = e.1 ∨ n = e.2.1 := by
  intro n hn
  simp only [add_edge] at hn ⊢
  rcases mem_insert_node.1 hn with hn2 | rfl
  · rcases mem_insert_node.1 hn2 with hn3 | rfl
    · rcases hg n hn3 with ⟨e, he, hend⟩
      exact ⟨e, List.mem_append_left _ he, hend⟩
    · exact ⟨(n, v, w), List.mem_append_right _ (by simp), Or.inl rfl⟩
  · exact ⟨(u, n, w), List.mem_append_right _ (by simp), Or.inr rfl⟩

theorem add_trip_edges_nodes_prop (avg : Str × Str → Option ℚ) (names : List Str) :
    ∀ g : Graph, (∀ n ∈ g.nodes, ∃ e ∈ g.edges, n = e.1 ∨ n = e.2.1) →
      ∀ n ∈ (add_trip_edges avg g names).nodes,
        ∃ e ∈ (add_trip_edges avg g names).edges, n = e.1 ∨ n = e.2.1 := by
  simp only [add_trip_edges]
  generalize names.zip names.tail = prs
  induction prs with
  | nil =>
      intro g hg
      simpa using hg
  | cons pr prs ih =>
      intro g hg
      rw [List.foldl_cons]
      apply ih
      cases havg : avg (pr.1, pr.2) with
      | none => simpa [havg] using hg
      | some w =>
          simp only [havg]
          exact add_edge_nodes_prop pr.1 pr.2 w hg

theorem build_fold_nodes_prop (avg : Str × Str → Option ℚ)
    (groups : List (Str × List TimedStop)) :
    ∀ g : Graph, (∀ n ∈ g.nodes, ∃ e ∈ g.edges, n = e.1 ∨ n = e.2.1) →
      ∀ n ∈ (groups.foldl (fun acc gr => add_trip_edges avg acc (gr.2.map (·.stop_name))) g).nodes,
        ∃ e ∈ (groups.foldl
            (fun acc gr => add_trip_edges avg acc (gr.2.map (·.stop_name))) g).edges,
          n = e.1 ∨ n = e.2.1 := by
  induction groups with
  | nil =>
      intro g hg
      simpa using hg
  | cons gr groups ih =>
      intro g hg
      rw [List.foldl_cons]
      exact ih _ (add_trip_edges_nodes_prop avg _ g hg)

/-! ### Claim C3 -/

/-- C3: for every input, every edge the builder emits carries the arithmetic
mean of all surviving samples of its directed stop-name pair (a single-sample
pair yields that sample as its average), never a per-trip raw sample. -/
theorem claim_C3_edges_carry_mean
    (stops : List StopRow) (stop_times : List StopTimeRow)
    (trips : List TripRow) (routes : List RouteRow) (g : Graph)
    (samples : List ((Str × Str) × ℚ))
    (hg : build_graph stops stop_times trips routes = .ok g)
    (hs : feed_samples stops stop_times trips routes = .ok samples) :
    ∀ e ∈ g.edges,
      samples_for samples (e.1, e.2.1) ≠ [] ∧
      e.2.2 = (samples_for samples (e.1, e.2.1)).sum /
        (samples_for samples (e.1, e.2.1)).length := by
  rcases build_graph_ok hg with ⟨groups, samples2, hgr, hall, hfs, rfl⟩
  have hsam : samples2 = samples := by
    rw [hs] at hfs
    exact (Except.ok.inj hfs).symm
  subst samples2
  intro e he
  have he2 : e ∈ (groups.foldl
      (fun acc gr => add_trip_edges (avg_segment_time samples) acc (gr.2.map (·.stop_name)))
      ⟨[], [], []⟩).edges := by
    simpa [assemble_graph, set_node_attributes_edges] using he
  have hP := build_fold_edges_prop
    (P := fun e => avg_segment_time samples (e.1, e.2.1) = some e.2.2)
    (fun u v w h => h) groups ⟨[], [], []⟩ (by simp) e he2
  exact avg_segment_time_some hP

/-- C3 witness: the two-trip feed with raw samples 4 and 6 minutes for
(A, B); the emitted edge carries 5, the mean of the surviving samples. -/
theorem claim_C3_witness :
    build_graph [stopA, stopB] [stA1, stB1, stA2, stB2] [tripT1, tripT2] [routeR] =
      .ok graphTwo ∧
    feed_samples [stopA, stopB] [stA1, stB1, stA2, stB2] [tripT1, tripT2] [routeR] =
      .ok samplesTwo ∧
    (nmA, nmB, (5 : ℚ)) ∈ graphTwo.edges ∧
    samples_for samplesTwo (nmA, nmB) ≠ [] ∧
    ((nmA, nmB, (5 : ℚ)) : Str × Str × ℚ).2.2 =
      (samples_for samplesTwo (nmA, nmB)).sum / (samples_for samplesTwo (nmA, nmB)).length :=
  ⟨by with_unfolding_all rfl, by with_unfolding_all rfl, by with_unfolding_all decide,
   (claim_C3_edges_carry_mean [stopA, stopB] [stA1, stB1, stA2, stB2] [tripT1, tripT2]
      [routeR] graphTwo samplesTwo
      (by with_unfolding_all rfl) (by with_unfolding_all rfl)
      (nmA, nmB, (5 : ℚ)) (by with_unfolding_all decide)).1,
   (claim_C3_edges_carry_mean [stopA, stopB] [stA1, stB1, stA2, stB2] [tripT1, tripT2]
      [routeR] graphTwo samplesTwo
      (by with_unfolding_all rfl) (by with_unfolding_all rfl)
      (nmA, nmB, (5 : ℚ)) (by with_unfolding_all decide)).2⟩

/-! ### Claim C2 -/

/-- C2 counterexample: in the two-trip feed the segment (A, B) is traversed
by two selected trips, and the `MultiDiGraph` receives one `add_edge` call
per traversal, so the output graph holds two parallel edges for the directed
pair (A, B) — not at most one. -/
theorem claim_C2_counterexample :
    (build_graph [stopA, stopB] [stA1, stB1, stA2, stB2] [tripT1, tripT2] [routeR]).map
        (fun g => g.edges.map (fun e => (e.1, e.2.1))) =
      .ok [(nmA, nmB), (nmA, nmB)] := by
  with_unfolding_all rfl

/-- C2 amended: the builder may emit several parallel edges for the same
directed pair (one per traversal occurrence), but they all carry the same
averaged value, so at most one distinct weight exists per directed pair. -/
theorem claim_C2_amended_one_weight_per_pair
    (stops : List StopRow) (stop_times : List StopTimeRow)
    (trips : List TripRow) (routes : List RouteRow) (g : Graph)
    (hg : build_graph stops stop_times trips routes = .ok g) :
    ∀ e1 ∈ g.edges, ∀ e2 ∈ g.edges,
      e1.1 = e2.1 → e1.2.1 = e2.2.1 → e1.2.2 = e2.2.2 := by
  rcases build_graph_ok hg with ⟨groups, samples, hgr, hall, hfs, rfl⟩
  intro e1 he1 e2 he2 hu hv
  have hmem : ∀ e ∈ (assemble_graph groups samples (stop_info_by_name stops)).edges,
      e ∈ (groups.foldl
        (fun acc gr => add_trip_edges (avg_segment_time samples) acc (gr.2.map (·.stop_name)))
        ⟨[], [], []⟩).edges := by
    intro e he
    simpa [assemble_graph, set_node_attributes_edges] using he
  have h1 := build_fold_edges_prop
    (P := fun e => avg_segment_time samples (e.1, e.2.1) = some e.2.2)
    (fun u v w h => h) groups ⟨[], [], []⟩ (by simp) e1 (hmem e1 he1)
  have h2 := build_fold_edges_prop
    (P := fun e => avg_segment_time samples (e.1, e.2.1) = some e.2.2)
    (fun u v w h => h) groups ⟨[], [], []⟩ (by simp) e2 (hmem e2 he2)
  have h1b : avg_segment_time samples (e1.1, e1.2.1) = some e1.2.2 := h1
  have h2b : avg_segment_time samples (e2.1, e2.2.1) = some e2.2.2 := h2
  rw [hu, hv] at h1b
  rw [h1b] at h2b
  exact Option.some.inj h2b

/-- C2 witness for the amended claim: in the two-trip graph both parallel
(A, B) edges carry the same weight. -/
theorem claim_C2_witness :
    build_graph [stopA, stopB] [stA1, stB1, stA2, stB2] [tripT1, tripT2] [routeR] =
      .ok graphTwo ∧
    (nmA, nmB, (5 : ℚ)) ∈ graphTwo.edges ∧
    ((nmA, nmB, (5 : ℚ)) : Str × Str × ℚ).2.2 = ((nmA, nmB, (5 : ℚ)) : Str × Str × ℚ).2.2 :=
  ⟨by with_unfolding_all rfl, by with_unfolding_all decide,
   claim_C2_amended_one_weight_per_pair [stopA, stopB] [stA1, stB1, stA2, stB2]
     [tripT1, tripT2] [routeR] graphTwo (by with_unfolding_all rfl)
     (nmA, nmB, (5 : ℚ)) (by with_unfolding_all decide)
     (nmA, nmB, (5 : ℚ)) (by with_unfolding_all decide) rfl rfl⟩

/-! ### Claim C10 -/

/-- C10: every node of the output graph is an endpoint of at least one edge
(nodes are only ever created by `add_edge`), and attaching coordinate
attributes never adds nodes: every attributed name is an existing node. -/
theorem claim_C10_nodes_have_edges
    (stops : List StopRow) (stop_times : List StopTimeRow)
    (trips : List TripRow) (routes : List RouteRow) (g : Graph)
    (hg : build_graph stops stop_times trips routes = .ok g) :
    (∀ n ∈ g.nodes, ∃ e ∈ g.edges, n = e.1 ∨ n = e.2.1) ∧
    (∀ kv ∈ g.node_attrs, kv.1 ∈ g.nodes) := by
  rcases build_graph_ok hg with ⟨groups, samples, hgr, hall, hfs, rfl⟩
  constructor
  · intro n hn
    have hn2 : n ∈ (groups.foldl
        (fun acc gr => add_trip_edges (avg_segment_time samples) acc (gr.2.map (·.stop_name)))
        ⟨[], [], []⟩).nodes := by
      simpa [assemble_graph, set_node_attributes_nodes] using hn
    rcases build_fold_nodes_prop (avg_segment_time samples) groups ⟨[], [], []⟩
        (by simp) n hn2 with ⟨e, he, hend⟩
    refine ⟨e, ?_, hend⟩
    simpa [assemble_graph, set_node_attributes_edges] using he
  · intro kv hkv
    have hkv2 : kv ∈ (stop_info_by_name stops).filter
        (fun kv => decide (kv.1 ∈ (groups.foldl
          (fun acc gr => add_trip_edges (avg_segment_time samples) acc (gr.2.map (·.stop_name)))
          ⟨[], [], []⟩).nodes)) := by
      simpa [assemble_graph, set_node_attributes] using hkv
    have := (List.mem_filter.1 hkv2).2
    simp only [assemble_graph, set_node_attributes_nodes]
    exact of_decide_eq_true this

/-- C10 witness: in the two-trip graph the node A is an endpoint of an edge. -/
theorem claim_C10_witness :
    build_graph [stopA, stopB] [stA1, stB1, stA2, stB2] [tripT1, tripT2] [routeR] =
      .ok graphTwo ∧
    nmA ∈ graphTwo.nodes ∧
    (∃ e ∈ graphTwo.edges, nmA = e.1 ∨ nmA = e.2.1) :=
  ⟨by with_unfolding_all rfl, by with_unfolding_all decide,
   (claim_C10_nodes_have_edges [stopA, stopB] [stA1, stB1, stA2, stB2] [tripT1, tripT2]
      [routeR] graphTwo (by with_unfolding_all rfl)).1
     nmA (by with_unfolding_all decide)⟩

/-! ### Claim C6 -/

/-- C6: a consecutive pair whose computed travel time is negative is dropped
entirely, not clamped: no surviving sample is negative; the synthetic feed
whose only pair has departure 08:00:00 and arrival 07:59:00 contributes zero
samples and produces a graph with no edge at all; and a zero-duration sample
is kept and produces an edge of weight 0. -/
theorem claim_C6_negative_dropped :
    (∀ (stops : List StopRow) (stop_times : List StopTimeRow)
        (trips : List TripRow) (routes : List RouteRow)
        (samples : List ((Str × Str) × ℚ)),
        feed_samples stops stop_times trips routes = .ok samples →
        ∀ s ∈ samples, 0 ≤ s.2) ∧
    feed_samples [stopA, stopB] [stA1, stNegArr] [tripT1] [routeR] = .ok [] ∧
    (build_graph [stopA, stopB] [stA1, stNegArr] [tripT1] [routeR]).map (fun g => g.edges) =
      .ok [] ∧
    (build_graph [stopA, stopB] [stA1, stZeroArr] [tripT1] [routeR]).map (fun g => g.edges) =
      .ok [(nmA, nmB, 0)] := by
  refine ⟨?_, ?_, ?_, ?_⟩
  · intro stops stop_times trips routes samples hs
    rw [feed_samples_eq] at hs
    cases hgr : feed_groups stops stop_times trips routes with
    | error e =>
        cases e
        rw [hgr, except_bind_error] at hs
        exact absurd hs (by simp)
    | ok groups =>
        rw [hgr, except_bind_ok] at hs
        exact all_samples_ok_nonneg hs
  · with_unfolding_all rfl
  · with_unfolding_all rfl
  · with_unfolding_all rfl

/-- C6 witness: the universal part applied to the two-trip feed and its
first surviving sample. -/
theorem claim_C6_witness :
    feed_samples [stopA, stopB] [stA1, stB1, stA2, stB2] [tripT1, tripT2] [routeR] =
      .ok samplesTwo ∧
    ((nmA, nmB), (4 : ℚ)) ∈ samplesTwo ∧
    0 ≤ (((nmA, nmB), (4 : ℚ)) : (Str × Str) × ℚ).2 :=
  ⟨by with_unfolding_all rfl, by with_unfolding_all decide,
   claim_C6_negative_dropped.1 [stopA, stopB] [stA1, stB1, stA2, stB2] [tripT1, tripT2]
     [routeR] samplesTwo (by with_unfolding_all rfl)
     ((nmA, nmB), (4 : ℚ)) (by with_unfolding_all decide)⟩

/-! ### Claim C9 -/

/-- C9: the averaged time of the directed pair (A, B) depends only on the
samples aggregated under the key (A, B): two feeds that agree on the (A, B)
sample list — however much they differ elsewhere, in particular on (B, A) —
yield the same average for (A, B). -/
theorem claim_C9_directional_noninterference
    (stops1 : List StopRow) (stop_times1 : List StopTimeRow)
    (trips1 : List TripRow) (routes1 : List RouteRow)
    (stops2 : List StopRow) (stop_times2 : List StopTimeRow)
    (trips2 : List TripRow) (routes2 : List RouteRow)
    (A B : Str) (s1 s2 : List ((Str × Str) × ℚ))
    (_h1 : feed_samples stops1 stop_times1 trips1 routes1 = .ok s1)
    (_h2 : feed_samples stops2 stop_times2 trips2 routes2 = .ok s2)
    (hagree : samples_for s1 (A, B) = samples_for s2 (A, B)) :
    avg_segment_time s1 (A, B) = avg_segment_time s2 (A, B) := by
  rw [avg_segment_time, avg_segment_time, hagree]

/-- C9 witness: a one-trip feed and a two-trip feed that agree on the (A, B)
samples but differ on (B, A) give the same (A, B) average. -/
theorem claim_C9_witness :
    feed_samples [stopA, stopB] [stA1, stB5] [tripT1] [routeR] = .ok [((nmA, nmB), 5)] ∧
    feed_samples [stopA, stopB] [stA1, stB5, st3B, st3A] [tripT1, tripT3] [routeR] =
      .ok [((nmA, nmB), 5), ((nmB, nmA), 2)] ∧
    samples_for [((nmA, nmB), (5 : ℚ))] (nmA, nmB) =
      samples_for [((nmA, nmB), 5), ((nmB, nmA), 2)] (nmA, nmB) ∧
    avg_segment_time [((nmA, nmB), (5 : ℚ))] (nmA, nmB) =
      avg_segment_time [((nmA, nmB), 5), ((nmB, nmA), 2)] (nmA, nmB) :=
  ⟨by with_unfolding_all rfl, by with_unfolding_all rfl, by with_unfolding_all rfl,
   claim_C9_directional_noninterference
     [stopA, stopB] [stA1, stB5] [tripT1] [routeR]
     [stopA, stopB] [stA1, stB5, st3B, st3A] [tripT1, tripT3] [routeR]
     nmA nmB [((nmA, nmB), 5)] [((nmA, nmB), 5), ((nmB, nmA), 2)]
     (by with_unfolding_all rfl) (by with_unfolding_all rfl)
     (by with_unfolding_all rfl)⟩

/-! ### Claim C4 -/

theorem sorted_stop_times_ok {rows l : List StopTimeRow}
    (h : sorted_stop_times rows = .ok l) :
    ∃ d, decorated rows = .ok d ∧ l = (List.insertionSort row_le d).map (·.1) := by
  rw [sorted_stop_times] at h
  cases hd : decorated rows with
  | error e =>
      cases e
      rw [hd, except_bind_error] at h
      exact absurd h (by simp)
  | ok d =>
      rw [hd, except_bind_ok, except_pure] at h
      exact ⟨d, rfl, (Except.ok.inj h).symm⟩

theorem decorated_ok_eq {rows : List StopTimeRow} {d : List (StopTimeRow × (Str × Int))}
    (h : decorated rows = .ok d) :
    d = rows.map (fun r => (r, row_key r)) := by
  rw [decorated] at h
  refine mapExcept_ok_map ?_ h
  intro x y hxy
  rcases hseq : pyInt? x.stop_sequence with _ | n
  · rw [hseq] at hxy
    exact absurd hxy (by simp)
  · rw [hseq] at hxy
    cases hxy
    simp [row_key, hseq]

/-- C4: the filtered stop-time records are sorted by the key
(trip_id, stop_sequence read as an integer) — numerically, not lexically:
the output is ordered under `sort_key_le` on `row_key` and is a permutation
of the filtered records; and the stop_sequence set {"2", "10", "3"} comes
out in the numeric order 2, 3, 10. -/
theorem claim_C4_numeric_sort :
    (∀ (stops : List StopRow) (stop_times : List StopTimeRow) (trips : List TripRow)
        (routes : List RouteRow) (l : List StopTimeRow),
        sorted_stop_times (selected_stop_times stops stop_times trips routes) = .ok l →
        List.Pairwise (fun r1 r2 => sort_key_le (row_key r1) (row_key r2)) l ∧
        l.Perm (selected_stop_times stops stop_times trips routes)) ∧
    sorted_stop_times (selected_stop_times [stopA, stopB, stopC] [stSeq2, stSeq10, stSeq3]
        [tripT1] [routeR]) = .ok [stSeq2, stSeq3, stSeq10] := by
  constructor
  · intro stops stop_times trips routes l hl
    rcases sorted_stop_times_ok hl with ⟨d, hd, rfl⟩
    have hdeq := decorated_ok_eq hd
    have hdec : ∀ x ∈ List.insertionSort row_le d, x.2 = row_key x.1 := by
      intro x hx
      have hx2 : x ∈ d := (List.perm_insertionSort row_le d).subset hx
      rw [hdeq] at hx2
      rcases List.mem_map.1 hx2 with ⟨r, _, rfl⟩
      rfl
    constructor
    · rw [List.pairwise_map]
      have hsorted : List.Pairwise row_le (List.insertionSort row_le d) :=
        List.sorted_insertionSort row_le d
      exact hsorted.imp_of_mem (fun ha hb hr => by
        have e1 := hdec _ ha
        have e2 := hdec _ hb
        rw [row_le] at hr
        rw [← e1, ← e2]
        exact hr)
    · have hperm : List.Perm ((List.insertionSort row_le d).map (·.1)) (d.map (·.1)) :=
        (List.perm_insertionSort row_le d).map _
      refine hperm.trans ?_
      rw [hdeq, List.map_map]
      have hcomp : ((·.1) ∘ fun r : StopTimeRow => (r, row_key r)) = id := rfl
      rw [hcomp, List.map_id]
  · with_unfolding_all rfl

/-- C4 witness: the general ordering result applied to the feed whose
stop_sequence values are "2", "10", "3". -/
theorem claim_C4_witness :
    sorted_stop_times (selected_stop_times [stopA, stopB, stopC] [stSeq2, stSeq10, stSeq3]
        [tripT1] [routeR]) = .ok [stSeq2, stSeq3, stSeq10] ∧
    List.Pairwise (fun r1 r2 => sort_key_le (row_key r1) (row_key r2))
      [stSeq2, stSeq3, stSeq10] ∧
    List.Perm [stSeq2, stSeq3, stSeq10]
      (selected_stop_times [stopA, stopB, stopC] [stSeq2, stSeq10, stSeq3] [tripT1] [routeR]) :=
  ⟨by with_unfolding_all rfl,
   (claim_C4_numeric_sort.1 [stopA, stopB, stopC] [stSeq2, stSeq10, stSeq3] [tripT1] [routeR]
      [stSeq2, stSeq3, stSeq10] (by with_unfolding_all rfl)).1,
   (claim_C4_numeric_sort.1 [stopA, stopB, stopC] [stSeq2, stSeq10, stSeq3] [tripT1] [routeR]
      [stSeq2, stSeq3, stSeq10] (by with_unfolding_all rfl)).2⟩

/-! ### Splitting lemmas for the time parser -/

theorem splitOnColon_ne_nil : ∀ s : Str, splitOnColon s ≠ [] := by
  intro s
  cases s with
  | nil => simp [splitOnColon]
  | cons c rest =>
      rw [splitOnColon]
      cases splitOnColon rest with
      | nil => simp
      | cons p ps => by_cases hc : c = ':' <;> simp [hc]

theorem splitOnColon_no_colon : ∀ {s : Str}, ':' ∉ s → splitOnColon s = [s] := by
  intro s
  induction s with
  | nil => intro _; rfl
  | cons c rest ih =>
      intro h
      have hc : ¬(c = ':') := by
        intro e
        exact h (by rw [e]; exact List.mem_cons_self _ _)
      have hr : ':' ∉ rest := fun m => h (List.mem_cons_of_mem _ m)
      rw [splitOnColon, ih hr]
      simp [hc]

theorem splitOnColon_append : ∀ {a : Str}, ':' ∉ a → ∀ t : Str,
    splitOnColon (a ++ ':' :: t) = a :: splitOnColon t := by
  intro a
  induction a with
  | nil =>
      intro _ t
      rw [List.nil_append, splitOnColon]
      cases hsp : splitOnColon t with
      | nil => exact absurd hsp (splitOnColon_ne_nil t)
      | cons p ps => simp
  | cons c rest ih =>
      intro h t
      have hc : ¬(c = ':') := by
        intro e
        exact h (by rw [e]; exact List.mem_cons_self _ _)
      have hr : ':' ∉ rest := fun m => h (List.mem_cons_of_mem _ m)
      rw [List.cons_append, splitOnColon, ih hr t]
      simp [hc]

theorem parse_gtfs_time_three_fields {a b c : Str}
    (ha : ':' ∉ a) (hb : ':' ∉ b) (hc : ':' ∉ c) :
    parse_gtfs_time (a ++ ':' :: (b ++ ':' :: c)) =
      match pyInt? a, pyInt? b, pyInt? c with
      | some hh, some mm, some ss => .ok (some (hh * 3600 + mm * 60 + ss))
      | _, _, _ => .error () := by
  have hne : ¬(a ++ ':' :: (b ++ ':' :: c) = []) := by cases a <;> simp
  rw [parse_gtfs_time, if_neg hne, splitOnColon_append ha,
    splitOnColon_append hb, splitOnColon_no_colon hc]

/-! ### Claim C5 -/

/-- C5: a time text of the form HH:MM:SS whose three colon-separated fields
are integer literals parses to HH*3600 + MM*60 + SS seconds — with no upper
bound on the hour field — and the empty text yields the unparseable
marker. -/
theorem claim_C5_time_conversion :
    (∀ (a b c : Str) (hh mm ss : Int), ':' ∉ a → ':' ∉ b → ':' ∉ c →
        pyInt? a = some hh → pyInt? b = some mm → pyInt? c = some ss →
        parse_gtfs_time (a ++ ':' :: (b ++ ':' :: c)) =
          .ok (some (hh * 3600 + mm * 60 + ss))) ∧
    parse_gtfs_time [] = .ok none := by
  constructor
  · intro a b c hh mm ss ha hb hc ia ib ic
    rw [parse_gtfs_time_three_fields ha hb hc, ia, ib, ic]
  · rfl

/-- C5 witness: "25:03:07" — an hour past 23 — parses to 90187 seconds. -/
theorem claim_C5_witness :
    parse_gtfs_time (("25").toList ++ ':' :: (("03").toList ++ ':' :: ("07").toList)) =
      .ok (some 90187) := by
  have h := claim_C5_time_conversion.1 (("25").toList) (("03").toList) (("07").toList)
    25 3 7 (by decide) (by decide) (by decide) (by decide) (by decide) (by decide)
  have harith : (25 * 3600 + 3 * 60 + 7 : Int) = 90187 := by norm_num
  rw [harith] at h
  exact h

/-! ### Claim C1 -/

/-- C1 counterexample: a feed in which a selected trip has the departure
text "08:xx:00" (three fields, non-numeric middle-second component) makes
graph construction raise — the sample is not silently dropped. -/
theorem claim_C1_counterexample :
    build_graph [stopA, stopB] [stBadTime, stAfterBad] [tripT1] [routeR] = .error () := by
  with_unfolding_all rfl

/-- C1 amended: empty time text and time text with a field count other than
three are soft failures (the pair is treated as unparseable and dropped),
but a three-field time with a non-numeric component raises an exception
that aborts graph construction; in particular the feed containing
"08:xx:00" makes `build_graph` raise. -/
theorem claim_C1_amended_nonnumeric_raises :
    (∀ a b c : Str, ':' ∉ a → ':' ∉ b → ':' ∉ c →
        (pyInt? a = none ∨ pyInt? b = none ∨ pyInt? c = none) →
        parse_gtfs_time (a ++ ':' :: (b ++ ':' :: c)) = .error ()) ∧
    parse_gtfs_time [] = .ok none ∧
    (∀ s : Str, ¬(s = []) → ':' ∉ s → parse_gtfs_time s = .ok none) ∧
    build_graph [stopA, stopB] [stBadTime, stAfterBad] [tripT1] [routeR] = .error () := by
  refine ⟨?_, rfl, ?_, ?_⟩
  · intro a b c ha hb hc hnone
    rw [parse_gtfs_time_three_fields ha hb hc]
    rcases h1 : pyInt? a with _ | hh <;> rcases h2 : pyInt? b with _ | mm <;>
      rcases h3 : pyInt? c with _ | ss <;>
      first
        | rfl
        | simp [h1, h2, h3] at hnone
  · intro s hne hnc
    rw [parse_gtfs_time, if_neg hne, splitOnColon_no_colon hnc]
  · with_unfolding_all rfl

/-- C1 witness: the amended statement applied to the fields "08", "xx",
"00": the middle field is non-numeric and parsing raises. -/
theorem claim_C1_witness :
    parse_gtfs_time (("08").toList ++ ':' :: (("xx").toList ++ ':' :: ("00").toList)) =
      .error () :=
  claim_C1_amended_nonnumeric_raises.1 (("08").toList) (("xx").toList) (("00").toList)
    (by decide) (by decide) (by decide) (Or.inr (Or.inl (by decide)))

/-! ### Claim C8 -/

theorem orElse_some {α : Type} (a : α) (f : Unit → Option α) :
    (some a).orElse f = some a := rfl

theorem orElse_none {α : Type} (f : Unit → Option α) :
    (none : Option α).orElse f = f () := rfl

theorem alookup_append {α β : Type} [DecidableEq α] (l1 l2 : List (α × β)) (k : α) :
    alookup (l1 ++ l2) k = (alookup l1 k).orElse (fun _ => alookup l2 k) := by
  induction l1 with
  | nil => rfl
  | cons p rest ih =>
      cases p with
      | mk k1 v1 =>
          rw [List.cons_append, alookup, alookup]
          by_cases h : k1 = k
          · rw [if_pos h, if_pos h, orElse_some]
          · rw [if_neg h, if_neg h, ih]

theorem find?_cons_eq_some {α : Type} (p : α → Bool) (a : α) (l : List α) (h : p a = true) :
    List.find? p (a :: l) = some a := by
  have e : List.find? p (a :: l) = bif p a then some a else List.find? p l := rfl
  rw [e, h]
  rfl

theorem find?_cons_eq_rest {α : Type} (p : α → Bool) (a : α) (l : List α) (h : p a = false) :
    List.find? p (a :: l) = List.find? p l := by
  have e : List.find? p (a :: l) = bif p a then some a else List.find? p l := rfl
  rw [e, h]
  rfl

/-- The selection predicate of the trip selector, applied during the scan:
the trip's route qualifies and its key equals the probed key. -/
def trip_matches (routes : List RouteRow) (rid did : Str) (t : TripRow) : Bool :=
  route_qualifies routes t.route_id &&
    (decide (t.route_id = rid) && decide (t.direction_id.getD [] = did))

theorem selected_trips_lookup (routes : List RouteRow) :
    ∀ (ts : List TripRow) (acc : List ((Str × Str) × Str)) (rid did : Str),
      alookup (List.foldl (fun acc row =>
          if route_qualifies routes row.route_id then
            if (alookup acc (row.route_id, row.direction_id.getD [])).isSome then acc
            else acc ++ [((row.route_id, row.direction_id.getD []), row.trip_id)]
          else acc) acc ts) (rid, did) =
        (alookup acc (rid, did)).orElse (fun _ =>
          (ts.find? (trip_matches routes rid did)).map (·.trip_id)) := by
  intro ts
  induction ts with
  | nil =>
      intro acc rid did
      rw [List.foldl_nil, List.find?_nil]
      cases alookup acc (rid, did) with
      | none => rfl
      | some v => rfl
  | cons t ts ih =>
      intro acc rid did
      rw [List.foldl_cons]
      by_cases hq : route_qualifies routes t.route_id = true
      case neg =>
        have hqf : route_qualifies routes t.route_id = false := by
          cases hB : route_qualifies routes t.route_id
          · rfl
          · exact absurd hB hq
        have hpt : trip_matches routes rid did t = false := by
          rw [trip_matches, hqf]
          rfl
        rw [if_neg hq, find?_cons_eq_rest (trip_matches routes rid did) t ts hpt, ih]
      case pos =>
      rw [if_pos hq]
      by_cases hr : t.route_id = rid
      case neg =>
        have hpt : trip_matches routes rid did t = false := by
          rw [trip_matches]
          have : decide (t.route_id = rid) = false := by simp [hr]
          rw [this]
          simp
        rw [find?_cons_eq_rest (trip_matches routes rid did) t ts hpt]
        by_cases hin : (alookup acc (t.route_id, t.direction_id.getD [])).isSome = true
        · rw [if_pos hin, ih]
        · rw [if_neg hin, ih, alookup_append]
          have hkey : ¬((t.route_id, t.direction_id.getD []) = (rid, did)) := by
            intro e
            exact hr (congrArg Prod.fst e)
          cases hv : alookup acc (rid, did) with
          | some v => simp only [orElse_some]
          | none => simp only [alookup, if_neg hkey, orElse_none]
      case pos =>
      by_cases hd : t.direction_id.getD [] = did
      case neg =>
        have hpt : trip_matches routes rid did t = false := by
          rw [trip_matches]
          have : decide (t.direction_id.getD [] = did) = false := by simp [hd]
          rw [this]
          simp
        rw [find?_cons_eq_rest (trip_matches routes rid did) t ts hpt]
        by_cases hin : (alookup acc (t.route_id, t.direction_id.getD [])).isSome = true
        · rw [if_pos hin, ih]
        · rw [if_neg hin, ih, alookup_append]
          have hkey : ¬((t.route_id, t.direction_id.getD []) = (rid, did)) := by
            intro e
            exact hd (congrArg Prod.snd e)
          cases hv : alookup acc (rid, did) with
          | some v => simp only [orElse_some]
          | none => simp only [alookup, if_neg hkey, orElse_none]
      case pos =>
      have hpt : trip_matches routes rid did t = true := by
        rw [trip_matches, hq, decide_eq_true hr, decide_eq_true hd]
        rfl
      rw [find?_cons_eq_some (trip_matches routes rid did) t ts hpt]
      by_cases hin : (alookup acc (t.route_id, t.direction_id.getD [])).isSome = true
      · rw [if_pos hin, ih]
        cases hv : alookup acc (rid, did) with
        | some v => simp only [orElse_some]
        | none =>
            rw [hr, hd, hv] at hin
            simp at hin
      · rw [if_neg hin, ih, alookup_append]
        cases hv : alookup acc (rid, did) with
        | some v => simp only [orElse_some]
        | none =>
            have hkeq : (t.route_id, t.direction_id.getD []) = (rid, did) := by rw [hr, hd]
            simp [alookup, hkeq, orElse_some, orElse_none]

/-- C8: the trip selector maps each key (route_id, direction_id) — with a
missing direction_id read as the empty string — to the trip_id of the first
trip in source order whose route belongs to the configured mode set
{"0", "1"} and whose key matches; later trips with the same key are
discarded. -/
theorem claim_C8_first_trip_wins (routes : List RouteRow) (trips : List TripRow)
    (rid did : Str) :
    alookup (selected_trips routes trips) (rid, did) =
      (trips.find? (trip_matches routes rid did)).map (·.trip_id) := by
  rw [selected_trips, selected_trips_lookup routes trips [] rid did]
  rfl

/-! ### Claim C7 -/

theorem stop_info_lookup :
    ∀ (rows : List StopRow) (acc : List (Str × (PyFloat × PyFloat))) (name : Str),
      alookup (List.foldl (fun acc row =>
          if (alookup acc row.stop_name).isSome then acc
          else
            match coords_of row with
            | none => acc
            | some p => acc ++ [(row.stop_name, p)]) acc rows) name =
        (alookup acc name).orElse (fun _ =>
          (rows.find? (fun row => decide (row.stop_name = name) && (coords_of row).isSome)).bind
            coords_of) := by
  intro rows
  induction rows with
  | nil =>
      intro acc name
      rw [List.foldl_nil, List.find?_nil]
      cases alookup acc name with
      | none => rfl
      | some v => rfl
  | cons r rows ih =>
      intro acc name
      rw [List.foldl_cons]
      by_cases hn : r.stop_name = name
      case pos =>
        by_cases hin : (alookup acc r.stop_name).isSome = true
        · have hpacc : ∃ v, alookup acc name = some v := by
            rw [← hn]
            cases hl : alookup acc r.stop_name with
            | none => rw [hl] at hin; simp at hin
            | some v => exact ⟨v, rfl⟩
          rcases hpacc with ⟨v, hv⟩
          rw [if_pos hin, ih, hv]
          simp only [orElse_some]
        · rw [if_neg hin]
          have haccname : alookup acc name = none := by
            rw [← hn]
            cases hl : alookup acc r.stop_name with
            | none => rfl
            | some v => rw [hl] at hin; simp at hin
          cases hcr : coords_of r with
          | none =>
              have hpt : (decide (r.stop_name = name) && (coords_of r).isSome) = false := by
                rw [hcr]
                simp
              rw [find?_cons_eq_rest _ r rows hpt, ih]
          | some pt =>
              have hpt : (decide (r.stop_name = name) && (coords_of r).isSome) = true := by
                rw [hcr, decide_eq_true hn]
                rfl
              rw [find?_cons_eq_some _ r rows hpt, ih, alookup_append, haccname,
                orElse_none, orElse_none]
              have hone : alookup [(r.stop_name, pt)] name = some pt := by
                rw [alookup, if_pos hn]
              rw [hone, orElse_some]
              exact hcr.symm
      case neg =>
        have hpt : (decide (r.stop_name = name) && (coords_of r).isSome) = false := by
          have : decide (r.stop_name = name) = false := by simp [hn]
          rw [this]
          simp
        rw [find?_cons_eq_rest _ r rows hpt]
        by_cases hin : (alookup acc r.stop_name).isSome = true
        · rw [if_pos hin, ih]
        · rw [if_neg hin]
          cases hcr : coords_of r with
          | none => rw [ih]
          | some pt =>
              rw [ih, alookup_append]
              cases hv : alookup acc name with
              | some v => simp only [orElse_some]
              | none =>
                  have hone : alookup [(r.stop_name, pt)] name = none := by
                    rw [alookup, if_neg hn]
                    rfl
                  simp only [orElse_none, hone]

/-- C7 counterexample: the stop whose longitude text is "inf" has a
longitude that Python `float` parses to a non-finite value, yet the geocode
map assigns it coordinates — "parses as a finite decimal number" is not the
criterion the code applies. -/
theorem claim_C7_counterexample :
    pyFloat? (("inf").toList) = some PyFloat.posInf ∧
    PyFloat.posInf.isFinite = false ∧
    (alookup (stop_info_by_name [stopInf]) nmA).map (fun p => p.1) = some PyFloat.posInf :=
  ⟨rfl, rfl, rfl⟩

/-- C7 amended: the geocode map assigns to each stop name the parsed
coordinates of the first stop in scan order with that name whose longitude
and latitude texts are non-empty and parse under Python float syntax —
including infinite and NaN values; stops with blank or unparseable
coordinates contribute nothing to the geocode map, but such a stop still
appears in the stop_id-to-name mapping. -/
theorem claim_C7_amended_first_parsed_wins :
    (∀ (stops : List StopRow) (name : Str),
        alookup (stop_info_by_name stops) name =
          ((stop_rows stops).find? (fun row =>
            decide (row.stop_name = name) && (coords_of row).isSome)).bind coords_of) ∧
    stop_name_by_id [stopInf] (("si").toList) = some nmA := by
  constructor
  · intro stops name
    rw [stop_info_by_name, stop_info_lookup (stop_rows stops) [] name]
    rfl
  · rfl
